import Mathlib

/-!
Verification development for the `identity` face detection / recognition demo.

Shallow embedding of the repository's own logic:

* `face_rec_detect.cpp`: `low_pass_filter`, `detect_faces`, the body of the loop in `main`;
* `frame_source.cpp`: `VideoReader`, `get_last_dir`, `is_auto_dir`, `DirReader::Impl`,
  `calc_largest_size`, `get_subdirs`;
* `algo.cpp`: `create_classifier`, `DetectorLBP`.

Calls into the vision library and the operating system (`imread`, `readdir`, `opendir`,
`detectMultiScale`, ...) are parameters of the definitions that use them.  A C++ exception is
an `Except.error`, a mutable object is a value passed in and returned, an `unsigned` is a
`Nat` reduced modulo `2 ^ 32`.
-/

namespace Identity

/-! ## The debounce filter of `face_rec_detect.cpp` -/

/-- The value stored by `unsigned current_faces = detected_faces.size();`: the size of the
vector converted to a 32-bit `unsigned`. -/
def current_faces (size : Nat) : Nat := size % 2 ^ 32

/-- The function `low_pass_filter` of `face_rec_detect.cpp`.  The static local
`consecutive_positives` is passed in and returned; `size` is `detected_faces.size()`.
The result is the new value of the counter and the returned boolean. -/
def low_pass_filter (consecutive_positives : Nat) (size : Nat) : Nat × Bool :=
  let current_faces := current_faces size
  let consecutive_positives :=
    if current_faces ≠ 0 then (consecutive_positives + 1) % 2 ^ 32 else 0
  if current_faces ≥ 3 then (consecutive_positives, true) else (consecutive_positives, false)

/-- Value of the static counter after feeding the sizes in order, starting from `c`. -/
def counter_after (c : Nat) : List Nat → Nat
  | [] => c
  | size :: rest => counter_after (low_pass_filter c size).1 rest

/-- Values returned by `low_pass_filter` on the sizes fed in order, starting from `c`. -/
def filter_outputs (c : Nat) : List Nat → List Bool
  | [] => []
  | size :: rest => (low_pass_filter c size).2 :: filter_outputs (low_pass_filter c size).1 rest

/-- Values of the static counter after each of the sizes fed in order, starting from `c`. -/
def filter_counters (c : Nat) : List Nat → List Nat
  | [] => []
  | size :: rest =>
      (low_pass_filter c size).1 :: filter_counters (low_pass_filter c size).1 rest

/-- Length of the maximal run of nonzero counts at the end of a sequence. -/
def trailing_run (counts : List Nat) : Nat :=
  (counts.reverse.takeWhile (fun c => c ≠ 0)).length

/-- What the loop of `main` does with the faces of one frame. -/
inductive Recognition (Mat : Type) where
  /-- The filter returned false: `predict` is not called. -/
  | no_prediction : Recognition Mat
  /-- The call `model->predict(detected_faces[0])` on an existing first element. -/
  | predict (face : Mat) : Recognition Mat
  /-- The access `detected_faces[0]` on an empty vector. -/
  | out_of_bounds : Recognition Mat
  deriving DecidableEq, Repr

/-- The part of the loop body of `main` that follows `detect_faces`: the filter is consulted
and, when it confirms, `detected_faces[0]` is handed to `predict`. -/
def main_recognise {Mat : Type} (consecutive_positives : Nat) (detected_faces : List Mat) :
    Nat × Recognition Mat :=
  let r := low_pass_filter consecutive_positives detected_faces.length
  if r.2 then
    match detected_faces[0]? with
    | some face => (r.1, Recognition.predict face)
    | none => (r.1, Recognition.out_of_bounds)
  else
    (r.1, Recognition.no_prediction)

/-! ## Data shared by `frame_source.cpp` and `algo.cpp` -/

/-- Modelled from the spec: the type `Exception` of the header `except.h`, which is not among
the sources; an explicit error carrying a descriptive message. -/
structure Exception where
  msg : String
  deriving DecidableEq, Repr

/-- Ways in which a function of the repository does not return normally. -/
inductive Failure where
  /-- The statement `throw e;` with an `Exception` built by the repository. -/
  | thrown (e : Exception) : Failure
  /-- A failed `assert`: the process aborts. -/
  | assertion (expr : String) : Failure
  /-- A library call with undefined behaviour or a library exception. -/
  | library (call : String) : Failure
  deriving DecidableEq, Repr

deriving instance DecidableEq for Except

/-- The type `cv::Size`. -/
structure Size where
  width : Int
  height : Int
  deriving DecidableEq, Repr

/-- The type `cv::Rect`. -/
structure Rect where
  x : Int
  y : Int
  width : Int
  height : Int
  deriving DecidableEq, Repr

/-- The type `cv::Mat`, as far as the repository looks at it: its size and its `data`
pointer (`none` is the null pointer) with the pixels behind it. -/
structure Mat where
  size : Size
  data : Option (List Nat)
  deriving DecidableEq, Repr

/-- The method `cv::Mat::empty`: no data or no element. -/
def Mat.empty (m : Mat) : Bool :=
  m.data.isNone || m.size.width * m.size.height == 0

/-- Arguments of `detectMultiScale` after the image and the output vector. -/
structure DetectParams where
  scaleFactor : Rat
  minNeighbors : Int
  flags : Int
  minSize : Size
  deriving DecidableEq

/-- The default arguments of `cv::CascadeClassifier::detectMultiScale`. -/
def DetectParams.default : DetectParams :=
  { scaleFactor := 11 / 10, minNeighbors := 3, flags := 0, minSize := { width := 0, height := 0 } }

/-- The constant `CV_HAAR_SCALE_IMAGE`. -/
def CV_HAAR_SCALE_IMAGE : Int := 2

/-- The constant `CV_LOAD_IMAGE_GRAYSCALE`. -/
def CV_LOAD_IMAGE_GRAYSCALE : Int := 0

/-- The constant `CV_LOAD_IMAGE_UNCHANGED`. -/
def CV_LOAD_IMAGE_UNCHANGED : Int := -1

/-- The type `cv::CascadeClassifier`: whether a definition was loaded, and the detector. -/
structure CascadeClassifier where
  empty : Bool
  detectMultiScale : Mat → DetectParams → List Rect

/-- The type `cv::VideoCapture`, as far as the constructors look at it. -/
structure VideoCapture where
  isOpened : Bool
  deriving DecidableEq, Repr

/-- The vision library and the operating system, as the repository calls them. -/
structure Env where
  /-- The entry names that `readdir` yields for an opened directory, in order; `none` when
  `opendir` returns the null pointer. -/
  opendir : String → Option (List String)
  /-- The call `cv::imread( file, flags )`. -/
  imread : String → Int → Mat
  /-- The call `cv::equalizeHist( m, m )`. -/
  equalizeHist : Mat → Mat
  /-- The call `cvtColor( m, out, CV_BGR2GRAY )`. -/
  cvtColor : Mat → Mat
  /-- The call `frame( rect )`; `none` when the library rejects the rectangle. -/
  roi : Mat → Rect → Option Mat
  /-- The constructor `cv::CascadeClassifier c( xml_path )`. -/
  load_classifier : String → CascadeClassifier
  /-- The constructor `cv::VideoCapture( path )`. -/
  open_capture : String → VideoCapture

/-! ## `frame_source.cpp` -/

/-- The class `VideoReader`. -/
structure VideoReader where
  _video_stream : VideoCapture
  _good : Bool
  deriving DecidableEq, Repr

/-- The constructor `VideoReader::VideoReader( path )`. -/
def VideoReader.new (env : Env) (path : String) : Except Failure VideoReader :=
  let self : VideoReader := { _video_stream := env.open_capture path, _good := true }
  if ! self._video_stream.isOpened then
    let e : Exception := { msg := "Failed to open video file: " ++ path }
    Except.error (Failure.thrown e)
  else
    Except.ok self

/-- The conversion `VideoReader::operator bool`. -/
def VideoReader.bool (self : VideoReader) : Bool := self._good

/-- The method `VideoReader::operator>>`.  The pair `(b, frame)` is what the call
`_video_stream.read( frame )` returned and stored. -/
def VideoReader.read (self : VideoReader) (b : Bool) (frame : Mat) :
    Except Failure (VideoReader × Mat) :=
  if ! b then
    if frame.data.isSome then
      Except.error (Failure.assertion "! frame.data")
    else
      Except.ok ({ self with _good := false }, frame)
  else
    if frame.data.isNone then
      Except.error (Failure.assertion "frame.data")
    else
      Except.ok (self, frame)

/-- The reader after a sequence of reads whose underlying outcomes are given in order. -/
def VideoReader.reads (self : VideoReader) : List (Bool × Mat) → Except Failure VideoReader
  | [] => Except.ok self
  | (b, frame) :: rest =>
    match VideoReader.read self b frame with
    | Except.error f => Except.error f
    | Except.ok (self, _) => VideoReader.reads self rest

/-- The loop `while( path.back() == '/' ) path.pop_back();` of `get_last_dir`, on the string
held back to front: `back()` is the head and `pop_back()` leaves the tail; `none` when
`back()` is called on an empty string. -/
def pop_trailing : List Char → Option (List Char)
  | [] => none
  | c :: rest => if c = '/' then pop_trailing rest else some (c :: rest)

/-- The string that the loop of `get_last_dir` leaves in `path`. -/
def strip_trailing (path : List Char) : Option (List Char) :=
  (pop_trailing path.reverse).map List.reverse

/-- The call `path.rfind( c )`: the last position of `c`, `none` for `npos`. -/
def rfind : List Char → Char → Option Nat
  | [], _ => none
  | x :: xs, c =>
    match rfind xs c with
    | some i => some (i + 1)
    | none => if x = c then some 0 else none

/-- The function `get_last_dir` on the characters of the path. -/
def get_last_dir_chars (path : List Char) : Option (List Char) :=
  match strip_trailing path with
  | none => none
  | some path =>
    match rfind path '/' with
    | none => some path
    | some pos => some (path.drop (pos + 1))

/-- The function `get_last_dir`; `none` when it calls `back()` on an empty string. -/
def get_last_dir (path : String) : Option String :=
  (get_last_dir_chars path.data).map String.mk

/-- Lexicographic comparison of two character sequences: negative, zero or positive. -/
def chars_compare : List Char → List Char → Int
  | [], [] => 0
  | [], _ :: _ => -1
  | _ :: _, [] => 1
  | a :: as, b :: bs =>
    if a.toNat < b.toNat then -1
    else if b.toNat < a.toNat then 1
    else chars_compare as bs

/-- The call `a.compare( b )` of `std::string`, up to the magnitude of a nonzero result. -/
def string_compare (a b : String) : Int :=
  chars_compare a.data b.data

/-- The function `is_auto_dir`, on the field `d_name` of the entry. -/
def is_auto_dir (d_name : String) : Bool :=
  let is_currdir := string_compare d_name "." == 0
  let is_pardir := string_compare d_name ".." == 0
  is_currdir || is_pardir

/-- The type `Camera::ReadMode`. -/
inductive ReadMode where
  | _colour : ReadMode
  | _grayscale : ReadMode
  deriving DecidableEq, Repr

/-- The class `DirReader::Impl`.  The open directory `_dir` is the list of the entries that
`readdir` has not returned yet; `_stream` is the name of the entry last returned, `none` for
the null pointer. -/
structure DirReader where
  _path : String
  _label : String
  _read_mode : ReadMode
  _dir : List String
  _stream : Option String
  _size : Size
  deriving DecidableEq, Repr

/-- The conversion `DirReader::Impl::operator bool`. -/
def DirReader.bool (self : DirReader) : Bool := self._stream.isSome

/-- The method `DirReader::Impl::get_label`. -/
def DirReader.get_label (self : DirReader) : String := self._label

/-- The lambda `flags` of `DirReader::Impl::operator>>`. -/
def DirReader.flags (self : DirReader) : Int :=
  match self._read_mode with
  | ReadMode._grayscale => CV_LOAD_IMAGE_GRAYSCALE
  | ReadMode._colour => CV_LOAD_IMAGE_UNCHANGED

/-- The method `DirReader::Impl::operator>>` with the directory cursor as last argument:
each call of `readdir` takes the head of the cursor, and the call on itself after a
pseudo-entry goes on with the tail. -/
def DirReader.read_from (env : Env) (self : DirReader) (face : Mat) :
    List String → Except Failure (DirReader × Mat)
  | [] => Except.ok ({ self with _dir := [], _stream := none }, face)
  | d_name :: rest =>
    if is_auto_dir d_name then
      DirReader.read_from env self face rest
    else
      let file := self._path ++ "/" ++ d_name
      let face := env.imread file self.flags
      if face.data.isNone then
        let e : Exception := { msg := "Failed to read face file: " ++ file }
        Except.error (Failure.thrown e)
      else
        Except.ok ({ self with _dir := rest, _stream := some d_name }, face)

/-- The method `DirReader::Impl::operator>>`. -/
def DirReader.read (env : Env) (self : DirReader) (face : Mat) :
    Except Failure (DirReader × Mat) :=
  DirReader.read_from env self face self._dir

/-- One observation of a reader after a read: `bool()`, the entry behind `_stream` and the
frame the caller holds. -/
structure Observation where
  good : Bool
  entry : Option String
  face : Mat
  deriving DecidableEq, Repr

/-- The observations after each of `n` successive calls of `operator>>` on the same frame
variable, with the reader and the frame at the end. -/
def DirReader.reads (env : Env) :
    Nat → DirReader → Mat → Except Failure (List Observation × DirReader × Mat)
  | 0, self, face => Except.ok ([], self, face)
  | n + 1, self, face =>
    match DirReader.read env self face with
    | Except.error f => Except.error f
    | Except.ok (self, face) =>
      match DirReader.reads env n self face with
      | Except.error f => Except.error f
      | Except.ok (obs, last) =>
        Except.ok ({ good := self.bool, entry := self._stream, face := face } :: obs, last)

/-- The loop `while( r >> f )` of `calc_largest_size`, bounded by `fuel` reads. -/
def calc_largest_size_loop (env : Env) : Nat → DirReader → Mat → Size → Except Failure Size
  | 0, _, _, ret => Except.ok ret
  | fuel + 1, r, f, ret =>
    match DirReader.read env r f with
    | Except.error e => Except.error e
    | Except.ok (r, f) =>
      if r.bool then
        let ret := if f.size.width > ret.width then
          ({ width := f.size.width, height := ret.height } : Size) else ret
        let ret := if f.size.height > ret.height then
          ({ width := ret.width, height := f.size.height } : Size) else ret
        calc_largest_size_loop env fuel r f ret
      else
        Except.ok ret

/-- The constructor `DirReader::Impl::Impl` up to the test of `calc_size`. -/
def DirReader.open (env : Env) (path : String) (rm : ReadMode) : Except Failure DirReader :=
  match get_last_dir path with
  | none => Except.error (Failure.library "std::string::back on an empty string")
  | some label =>
    match env.opendir path with
    | none =>
      let e : Exception := { msg := "Failed to open faces directory: " ++ path }
      Except.error (Failure.thrown e)
    | some entries =>
      Except.ok { _path := path, _label := label, _read_mode := rm, _dir := entries,
                  _stream := none, _size := { width := 0, height := 0 } }

/-- The function `calc_largest_size`.  Its reader is built with `calc_size` false and the
read mode `rm` that the constructor declares as default.  The loop ends at the latest after
one read per entry and one more. -/
def calc_largest_size (env : Env) (rm : ReadMode) (path : String) : Except Failure Size :=
  match DirReader.open env path rm with
  | Except.error e => Except.error e
  | Except.ok r =>
    let f : Mat := { size := { width := 0, height := 0 }, data := none }
    let ret : Size := { width := 0, height := 0 }
    calc_largest_size_loop env (r._dir.length + 1) r f ret

/-- The constructor `DirReader::DirReader( path, calc_size, rm )`; `default_rm` is the read
mode that the constructor declares as default. -/
def DirReader.new (env : Env) (default_rm : ReadMode) (path : String) (calc_size : Bool)
    (rm : ReadMode) : Except Failure DirReader :=
  match DirReader.open env path rm with
  | Except.error e => Except.error e
  | Except.ok self =>
    if calc_size then
      match calc_largest_size env default_rm path with
      | Except.error e => Except.error e
      | Except.ok size => Except.ok { self with _size := size }
    else
      Except.ok self

/-- The loop `while( struct dirent * stream = readdir( dir ) )` of `get_subdirs`. -/
def get_subdirs_loop (env : Env) (default_rm : ReadMode) (dataset_path : String)
    (calc_size : Bool) : List String → List DirReader → Except Failure (List DirReader)
  | [], out => Except.ok out
  | d_name :: rest, out =>
    if is_auto_dir d_name then
      get_subdirs_loop env default_rm dataset_path calc_size rest out
    else
      let dirpath := dataset_path ++ "/" ++ d_name
      match DirReader.new env default_rm dirpath calc_size default_rm with
      | Except.error e => Except.error e
      | Except.ok r =>
        get_subdirs_loop env default_rm dataset_path calc_size rest (out ++ [r])

/-- The function `get_subdirs`. -/
def get_subdirs (env : Env) (default_rm : ReadMode) (dataset_path : String)
    (calc_size : Bool) : Except Failure (List DirReader) :=
  match env.opendir dataset_path with
  | none =>
    let e : Exception := { msg := "Failed to open dataset dir: " ++ dataset_path }
    Except.error (Failure.thrown e)
  | some entries => get_subdirs_loop env default_rm dataset_path calc_size entries []

/-! ## `algo.cpp` -/

/-- The function `create_classifier`: the `Exception` is built and goes out of scope at the
end of the block, no `throw` statement follows. -/
def create_classifier (env : Env) (cascades_dir : String) (name : String) :
    Except Failure CascadeClassifier :=
  let xml_path := cascades_dir ++ "/" ++ name ++ ".xml"
  let c := env.load_classifier xml_path
  if c.empty then
    let _e : Exception := { msg := "Failed to load cascade classifier: " ++ xml_path }
    Except.ok c
  else
    Except.ok c

/-- The class `DetectorLBP`. -/
structure DetectorLBP where
  _classifier : CascadeClassifier

/-- The constructor `DetectorLBP::DetectorLBP`. -/
def DetectorLBP.new (env : Env) (cascades_dir : String) : Except Failure DetectorLBP :=
  match create_classifier env cascades_dir "haarcascade_frontalface_alt" with
  | Except.error e => Except.error e
  | Except.ok c => Except.ok { _classifier := c }

/-- The method `DetectorLBP::get_face_rects`; returns the frame as `equalizeHist` left it
and the rectangles. -/
def DetectorLBP.get_face_rects (env : Env) (self : DetectorLBP) (frame : Mat)
    (min_confidence : Rat) : Except Failure (Mat × List Rect) :=
  if frame.empty then
    Except.error (Failure.assertion "! frame.empty()")
  else
    let frame := env.equalizeHist frame
    let rects := self._classifier.detectMultiScale frame DetectParams.default
    let _ := min_confidence
    Except.ok (frame, rects)

/-- The loop `for( const auto & r : rects )` of `DetectorLBP::get_faces`. -/
def get_faces_loop (env : Env) (frame : Mat) : List Rect → List Mat → Except Failure (List Mat)
  | [], faces => Except.ok faces
  | r :: rest, faces =>
    match env.roi frame r with
    | none => Except.error (Failure.library "cv::Mat::operator()")
    | some cropped => get_faces_loop env frame rest (faces ++ [cropped])

/-- The method `DetectorLBP::get_faces`. -/
def DetectorLBP.get_faces (env : Env) (self : DetectorLBP) (frame : Mat)
    (min_confidence : Rat) : Except Failure (List Mat) :=
  match DetectorLBP.get_face_rects env self frame min_confidence with
  | Except.error e => Except.error e
  | Except.ok (frame, rects) => get_faces_loop env frame rects []

/-! ## `detect_faces` of `face_rec_detect.cpp` -/

/-- The loop `for(size_t i = 0; i < faces_rects.size(); ++i)` of `detect_faces`, from
index `i` on. -/
def detect_faces_loop (env : Env) (frame : Mat) (faces_rects : List Rect) :
    Nat → Nat → List Mat → Except Failure (List Mat)
  | 0, _, faces_images => Except.ok faces_images
  | todo + 1, i, faces_images =>
    match faces_rects[i]? with
    | none => Except.error (Failure.library "std::vector::operator[]")
    | some r =>
      let myROI : Rect := { x := r.x, y := r.y, width := r.width, height := r.height }
      match env.roi frame myROI with
      | none => Except.error (Failure.library "cv::Mat::operator()")
      | some cropped => detect_faces_loop env frame faces_rects todo (i + 1) (faces_images ++ [cropped])

/-- The vector `faces_rects` of `detect_faces` after the call of `detectMultiScale`;
`face_cascade` is the global classifier. -/
def detect_faces_rects (env : Env) (face_cascade : CascadeClassifier) (frame : Mat) :
    List Rect :=
  let frame_gray := env.cvtColor frame
  let frame_gray := env.equalizeHist frame_gray
  face_cascade.detectMultiScale frame_gray
    { scaleFactor := 11 / 10, minNeighbors := 2, flags := Int.lor 0 CV_HAAR_SCALE_IMAGE,
      minSize := { width := 30, height := 30 } }

/-- The function `detect_faces`; `face_cascade` is the global classifier. -/
def detect_faces (env : Env) (face_cascade : CascadeClassifier) (frame : Mat) :
    Except Failure (List Mat) :=
  let faces_rects := detect_faces_rects env face_cascade frame
  detect_faces_loop env frame faces_rects faces_rects.length 0 []

/-- The body of the loop of `main` for one frame read from the camera. -/
def main_loop_body (env : Env) (face_cascade : CascadeClassifier) (consecutive_positives : Nat)
    (frame : Mat) : Except Failure (Nat × Recognition Mat) :=
  match detect_faces env face_cascade frame with
  | Except.error e => Except.error e
  | Except.ok detected_faces => Except.ok (main_recognise consecutive_positives detected_faces)

/-! ## A small concrete environment, for evaluating the definitions -/

/-- A decoded image with one pixel value. -/
def sample_image (n : Nat) : Mat :=
  { size := { width := 2, height := 2 }, data := some [n] }

/-- The image that a failed decode or read leaves behind. -/
def no_image : Mat :=
  { size := { width := 0, height := 0 }, data := none }

/-- A dataset `data` with the subjects `alice` and `bob` and a hidden directory, a cascades
directory `cascades` with the frontal face definition, and a video `v.avi`. -/
def sample_env : Env where
  opendir := fun p =>
    if p = "data" then some [".", "alice", ".git", "bob", ".."]
    else if p = "data/alice" then some ["..", "1.png", ".", "2.png"]
    else if p = "data/.git" then some ["HEAD"]
    else if p = "data/bob" then some [".", "..", ".face.png"]
    else none
  imread := fun f _ =>
    if f = "data/alice/1.png" then sample_image 1
    else if f = "data/alice/2.png" then sample_image 2
    else if f = "data/bob/.face.png" then sample_image 3
    else no_image
  equalizeHist := fun m => m
  cvtColor := fun m => m
  roi := fun m r =>
    if 0 ≤ r.x ∧ 0 ≤ r.y ∧ 0 ≤ r.width ∧ 0 ≤ r.height ∧ r.x + r.width ≤ m.size.width ∧
        r.y + r.height ≤ m.size.height then
      some { size := { width := r.width, height := r.height }, data := m.data }
    else none
  load_classifier := fun p =>
    if p = "cascades/haarcascade_frontalface_alt.xml" then
      { empty := false,
        detectMultiScale := fun _ _ =>
          [{ x := 0, y := 0, width := 1, height := 1 }, { x := 1, y := 1, width := 1, height := 1 }] }
    else
      { empty := true, detectMultiScale := fun _ _ => [] }
  open_capture := fun p => { isOpened := decide (p = "v.avi") }

/-- A reader on the directory `data/alice` of `sample_env`, as the constructor leaves it. -/
def sample_reader : DirReader :=
  { _path := "data/alice", _label := "alice", _read_mode := ReadMode._colour,
    _dir := ["..", "1.png", ".", "2.png"], _stream := none, _size := { width := 0, height := 0 } }

/-! ## Theorems: debounce filter -/

theorem low_pass_filter_fst (c size : Nat) :
    (low_pass_filter c size).1 = if current_faces size ≠ 0 then (c + 1) % 2 ^ 32 else 0 := by
  unfold low_pass_filter
  by_cases h3 : current_faces size ≥ 3 <;> by_cases h0 : current_faces size = 0 <;>
    simp [h3, h0]

theorem low_pass_filter_snd (c size : Nat) :
    (low_pass_filter c size).2 = decide (current_faces size ≥ 3) := by
  unfold low_pass_filter
  by_cases h : current_faces size ≥ 3 <;> simp [h]

theorem counter_after_append (c : Nat) (xs ys : List Nat) :
    counter_after c (xs ++ ys) = counter_after (counter_after c xs) ys := by
  induction xs generalizing c with
  | nil => rfl
  | cons x xs ih => simp [counter_after, ih]

theorem trailing_run_append_singleton (xs : List Nat) (x : Nat) :
    trailing_run (xs ++ [x]) = if x ≠ 0 then trailing_run xs + 1 else 0 := by
  unfold trailing_run
  by_cases h : x = 0 <;> simp [List.takeWhile_cons, h]

theorem counter_after_eq_trailing_run (sizes : List Nat) :
    counter_after 0 sizes = trailing_run (sizes.map current_faces) % 2 ^ 32 := by
  induction sizes using List.reverseRecOn with
  | nil => rfl
  | append_singleton xs x ih =>
    rw [counter_after_append, List.map_append, List.map_singleton,
      trailing_run_append_singleton, ih]
    simp only [counter_after, low_pass_filter_fst]
    by_cases h : current_faces x = 0
    · simp [h]
    · simp [h, Nat.add_mod]

/-- C9: the counter `consecutive_positives` starts at 0 and after every sequence of
observations equals, modulo `2 ^ 32`, the length of the maximal run of nonzero detection counts
at the end of the sequence, the count of an observation being the `unsigned` value
`current_faces` (the vector size itself whenever it is below `2 ^ 32`); a count 0 resets the
counter to 0 and a count above 0 increments it by exactly 1 in `unsigned` arithmetic. -/
theorem consecutive_positives_counts_trailing_run (sizes : List Nat) :
    counter_after 0 [] = 0 ∧
    counter_after 0 sizes = trailing_run (sizes.map current_faces) % 2 ^ 32 ∧
    ((∀ s ∈ sizes, s < 2 ^ 32) → counter_after 0 sizes = trailing_run sizes % 2 ^ 32) ∧
    (∀ c size, current_faces size = 0 → (low_pass_filter c size).1 = 0) ∧
    (∀ c size, 0 < current_faces size → (low_pass_filter c size).1 = (c + 1) % 2 ^ 32) := by
  refine ⟨rfl, counter_after_eq_trailing_run sizes, ?_, ?_, ?_⟩
  · intro h
    have hmap : sizes.map current_faces = sizes := by
      conv_rhs => rw [← List.map_id sizes]
      apply List.map_congr_left
      intro s hs
      exact Nat.mod_eq_of_lt (h s hs)
    rw [counter_after_eq_trailing_run, hmap]
  · intro c size h
    simp [low_pass_filter_fst, h]
  · intro c size h
    simp [low_pass_filter_fst, Nat.pos_iff_ne_zero.mp h]

/-- Witness of C9 on the sequence `[1,1,0,2,2,2]`: the counter ends at 3. -/
theorem consecutive_positives_counts_trailing_run_witness :
    counter_after 0 [1, 1, 0, 2, 2, 2] = 3 := by
  have h := (consecutive_positives_counts_trailing_run [1, 1, 0, 2, 2, 2]).2.2.1 (by decide)
  rw [h]
  decide

/-- C1: on the sequence `[1,1,0,2,2,2,0]` the counter reaches 3 at the sixth observation and
`low_pass_filter` returns false there, as on every other observation of the sequence; on a
first observation with 3 faces it returns true although the run has length 1.  The returned
value is the test `current_faces >= 3` on the count of the present frame. -/
theorem low_pass_filter_ignores_counter :
    filter_counters 0 [1, 1, 0, 2, 2, 2, 0] = [1, 2, 0, 1, 2, 3, 0] ∧
    filter_outputs 0 [1, 1, 0, 2, 2, 2, 0] = [false, false, false, false, false, false, false] ∧
    low_pass_filter 0 3 = (1, true) ∧
    (∀ c size, (low_pass_filter c size).2 = decide (current_faces size ≥ 3)) := by
  refine ⟨by decide, by decide, by decide, low_pass_filter_snd⟩

theorem low_pass_filter_true_length (c size : Nat)
    (h : (low_pass_filter c size).2 = true) : 3 ≤ size := by
  rw [low_pass_filter_snd] at h
  have h3 : 3 ≤ current_faces size := by simpa using h
  exact le_trans h3 (Nat.mod_le _ _)

theorem main_recognise_cons {Face : Type} (c : Nat) (face : Face) (rest : List Face)
    (h : (low_pass_filter c (face :: rest).length).2 = true) :
    (main_recognise c (face :: rest)).2 = Recognition.predict face := by
  unfold main_recognise
  simp only [h, if_true, List.getElem?_cons_zero]

theorem main_recognise_of_false {Face : Type} (c : Nat) (l : List Face)
    (h : (low_pass_filter c l.length).2 = false) :
    (main_recognise c l).2 = Recognition.no_prediction := by
  unfold main_recognise
  simp [h]

theorem main_recognise_within_bounds {Face : Type} (c : Nat) (l : List Face) :
    (main_recognise c l).2 ≠ Recognition.out_of_bounds := by
  cases hb : (low_pass_filter c l.length).2 with
  | false => rw [main_recognise_of_false c l hb]; simp
  | true =>
    have h3 := low_pass_filter_true_length c l.length hb
    cases l with
    | nil => simp at h3
    | cons face rest => rw [main_recognise_cons c face rest hb]; simp

/-- C10: whenever `low_pass_filter` returns true for a list of detected faces the list is not
empty, so `detected_faces[0]` exists and is what `predict` receives; on a frame with no
detected face the filter returns false and `predict` is not called; no iteration of the loop
of `main` reads `detected_faces[0]` out of bounds. -/
theorem predict_access_within_bounds {Face : Type} (c : Nat) (detected_faces : List Face) :
    ((low_pass_filter c detected_faces.length).2 = true →
      detected_faces ≠ [] ∧ 0 < detected_faces.length ∧
      ∃ face, detected_faces[0]? = some face ∧
        (main_recognise c detected_faces).2 = Recognition.predict face) ∧
    (detected_faces = [] →
      (low_pass_filter c detected_faces.length).2 = false ∧
      (main_recognise c detected_faces).2 = Recognition.no_prediction) ∧
    (main_recognise c detected_faces).2 ≠ Recognition.out_of_bounds ∧
    (∀ (env : Env) (face_cascade : CascadeClassifier) (frame : Mat) (c' : Nat),
      main_loop_body env face_cascade c frame ≠ Except.ok (c', Recognition.out_of_bounds)) := by
  refine ⟨?_, ?_, main_recognise_within_bounds c detected_faces, ?_⟩
  · intro h
    have h3 := low_pass_filter_true_length c detected_faces.length h
    cases detected_faces with
    | nil => simp at h3
    | cons face rest =>
      exact ⟨by simp, by simp, face, by simp, main_recognise_cons c face rest h⟩
  · intro h
    subst h
    have hf : (low_pass_filter c ([] : List Face).length).2 = false := by
      rw [low_pass_filter_snd]
      simp [current_faces]
    exact ⟨hf, main_recognise_of_false c [] hf⟩
  · intro env face_cascade frame c' h
    unfold main_loop_body at h
    cases hd : detect_faces env face_cascade frame with
    | error e => simp [hd] at h
    | ok faces =>
      simp only [hd, Except.ok.injEq] at h
      exact main_recognise_within_bounds c faces (by rw [h])

/-- Witness of C10: on three detected faces the filter confirms and `predict` receives the
first of them. -/
theorem predict_access_within_bounds_witness :
    ([7, 8, 9] : List Nat) ≠ [] ∧ 0 < ([7, 8, 9] : List Nat).length ∧
      ∃ face, ([7, 8, 9] : List Nat)[0]? = some face ∧
        (main_recognise 0 [7, 8, 9]).2 = Recognition.predict face :=
  (predict_access_within_bounds 0 ([7, 8, 9] : List Nat)).1 (by decide)

/-! ## Theorems: `VideoReader` -/

theorem VideoReader_read_good_false (r r' : VideoReader) (b : Bool) (frame frame' : Mat)
    (hg : r._good = false) (h : VideoReader.read r b frame = Except.ok (r', frame')) :
    r'._good = false := by
  unfold VideoReader.read at h
  cases b <;> cases hd : frame.data <;> simp [hd] at h
  · rw [← h.1]
  · rw [← h.1]; exact hg

theorem VideoReader_reads_good_false (outcomes : List (Bool × Mat)) (r r' : VideoReader)
    (hg : r._good = false) (h : VideoReader.reads r outcomes = Except.ok r') :
    r'._good = false := by
  induction outcomes generalizing r with
  | nil =>
    simp only [VideoReader.reads, Except.ok.injEq] at h
    rw [← h]; exact hg
  | cons o rest ih =>
    obtain ⟨b, frame⟩ := o
    simp only [VideoReader.reads] at h
    cases hr : VideoReader.read r b frame with
    | error f => simp [hr] at h
    | ok p =>
      obtain ⟨r1, f1⟩ := p
      simp only [hr] at h
      exact ih r1 (VideoReader_read_good_false r r1 b frame f1 hg hr) h

theorem VideoReader_reads_after_failure (pre post : List (Bool × Mat)) (frame : Mat)
    (r r' : VideoReader)
    (h : VideoReader.reads r (pre ++ (false, frame) :: post) = Except.ok r') :
    r'._good = false := by
  induction pre generalizing r with
  | nil =>
    simp only [List.nil_append, VideoReader.reads] at h
    cases hr : VideoReader.read r false frame with
    | error f => simp [hr] at h
    | ok p =>
      obtain ⟨r1, f1⟩ := p
      simp only [hr] at h
      have hg : r1._good = false := by
        unfold VideoReader.read at hr
        cases hd : frame.data <;> simp [hd] at hr
        rw [← hr.1]
      exact VideoReader_reads_good_false post r1 r' hg h
  | cons o rest ih =>
    obtain ⟨b, fr⟩ := o
    simp only [List.cons_append, VideoReader.reads] at h
    cases hr : VideoReader.read r b fr with
    | error f => simp [hr] at h
    | ok p =>
      obtain ⟨r1, f1⟩ := p
      simp only [hr] at h
      exact ih r1 h

theorem VideoReader_reads_total (outcomes : List (Bool × Mat)) (r : VideoReader)
    (hw : ∀ o ∈ outcomes, o.1 = o.2.data.isSome) :
    ∃ r', VideoReader.reads r outcomes = Except.ok r' := by
  induction outcomes generalizing r with
  | nil => exact ⟨r, rfl⟩
  | cons o rest ih =>
    obtain ⟨b, frame⟩ := o
    have hb : b = frame.data.isSome := hw (b, frame) (List.mem_cons_self _ _)
    have hrest : ∀ o ∈ rest, o.1 = o.2.data.isSome :=
      fun o ho => hw o (List.mem_cons_of_mem _ ho)
    simp only [VideoReader.reads]
    unfold VideoReader.read
    cases hd : frame.data with
    | none =>
      have hb' : b = false := by rw [hb, hd]; rfl
      subst hb'
      simpa using ih _ hrest
    | some d =>
      have hb' : b = true := by rw [hb, hd]; rfl
      subst hb'
      simpa using ih _ hrest

/-- C5: right after a successful construction `bool()` of a `VideoReader` is true; for every
sequence of outcomes of the underlying stream read in which one read fails, `bool()` is false
after the last read of the sequence, whatever the reads before and after the failed one
return; and when each outcome pairs a failed read with a frame without data and a successful
read with a frame with data, no assertion stops the sequence. -/
theorem VideoReader_flag_never_recovers (env : Env) (path : String) (r : VideoReader)
    (pre post : List (Bool × Mat)) (frame : Mat)
    (hnew : VideoReader.new env path = Except.ok r) :
    r.bool = true ∧
    (∀ r', VideoReader.reads r (pre ++ (false, frame) :: post) = Except.ok r' →
      r'.bool = false) ∧
    ((∀ o ∈ pre ++ (false, frame) :: post, o.1 = o.2.data.isSome) →
      ∃ r', VideoReader.reads r (pre ++ (false, frame) :: post) = Except.ok r' ∧
        r'.bool = false) := by
  refine ⟨?_, ?_, ?_⟩
  · unfold VideoReader.new at hnew
    cases ho : (env.open_capture path).isOpened <;> simp [ho] at hnew
    rw [← hnew]; rfl
  · intro r' h
    exact VideoReader_reads_after_failure pre post frame r r' h
  · intro hw
    obtain ⟨r', h⟩ := VideoReader_reads_total _ r hw
    exact ⟨r', h, VideoReader_reads_after_failure pre post frame r r' h⟩

/-- Witness of C5 on the video `v.avi` of `sample_env`: a good read, a failed read, and a
read that returns a frame again. -/
theorem VideoReader_flag_never_recovers_witness :
    VideoReader.bool { _video_stream := { isOpened := true }, _good := true } = true ∧
    ∃ r', VideoReader.reads { _video_stream := { isOpened := true }, _good := true }
        ([(true, sample_image 1)] ++ (false, no_image) :: [(true, sample_image 2)])
          = Except.ok r' ∧ r'.bool = false :=
  have h := VideoReader_flag_never_recovers sample_env "v.avi"
    { _video_stream := { isOpened := true }, _good := true }
    [(true, sample_image 1)] [(true, sample_image 2)] no_image (by decide)
  ⟨h.1, h.2.2 (by decide)⟩

/-! ## Theorems: `create_classifier` -/

/-- C2: for the cascades directory `missing`, whose definition file does not load (the
classifier is empty), `create_classifier` and the constructor of `DetectorLBP` return
normally with the empty classifier; more generally `create_classifier` returns the loaded
classifier whether or not it is empty. -/
theorem create_classifier_returns_empty_classifier :
    (sample_env.load_classifier "missing/haarcascade_frontalface_alt.xml").empty = true ∧
    (∃ c, create_classifier sample_env "missing" "haarcascade_frontalface_alt" = Except.ok c ∧
      c.empty = true) ∧
    (∃ d, DetectorLBP.new sample_env "missing" = Except.ok d ∧ d._classifier.empty = true) ∧
    (∀ (env : Env) (cascades_dir name : String),
      create_classifier env cascades_dir name =
        Except.ok (env.load_classifier (cascades_dir ++ "/" ++ name ++ ".xml"))) := by
  have hall : ∀ (env : Env) (cascades_dir name : String),
      create_classifier env cascades_dir name =
        Except.ok (env.load_classifier (cascades_dir ++ "/" ++ name ++ ".xml")) := by
    intro env cascades_dir name
    unfold create_classifier
    simp
  refine ⟨by decide, ⟨_, hall _ _ _, by decide⟩, ?_, hall⟩
  refine ⟨{ _classifier := sample_env.load_classifier "missing/haarcascade_frontalface_alt.xml" },
    ?_, by decide⟩
  unfold DetectorLBP.new
  rw [hall]
  rfl

/-! ## Theorems: `is_auto_dir` and `DirReader` -/

theorem chars_compare_eq_zero (a b : List Char) : chars_compare a b = 0 ↔ a = b := by
  induction a generalizing b with
  | nil => cases b <;> simp [chars_compare]
  | cons x xs ih =>
    cases b with
    | nil => simp [chars_compare]
    | cons y ys =>
      simp only [chars_compare, List.cons.injEq]
      by_cases h1 : x.toNat < y.toNat
      · have hne : x ≠ y := fun h => by subst h; exact absurd h1 (lt_irrefl _)
        simp [h1, hne]
      · by_cases h2 : y.toNat < x.toNat
        · have hne : x ≠ y := fun h => by subst h; exact absurd h2 (lt_irrefl _)
          simp [h1, h2, hne]
        · have hn : x.toNat = y.toNat := by omega
          have hxy : x = y := by
            rw [← Char.ofNat_toNat x, ← Char.ofNat_toNat y, hn]
          simp [h1, h2, hxy, ih]

theorem string_compare_eq_zero (a b : String) : string_compare a b = 0 ↔ a = b := by
  unfold string_compare
  rw [chars_compare_eq_zero]
  exact ⟨String.ext, fun h => by rw [h]⟩

theorem is_auto_dir_iff (d_name : String) :
    is_auto_dir d_name = true ↔ d_name = "." ∨ d_name = ".." := by
  unfold is_auto_dir
  simp [string_compare_eq_zero]

theorem read_from_auto (env : Env) (self : DirReader) (face : Mat) (d : String)
    (rest : List String) (h : is_auto_dir d = true) :
    DirReader.read_from env self face (d :: rest) = DirReader.read_from env self face rest := by
  simp [DirReader.read_from, h]

theorem read_from_decoded (env : Env) (self : DirReader) (face : Mat) (d : String)
    (rest : List String) (h : is_auto_dir d = false)
    (hd : (env.imread (self._path ++ "/" ++ d) self.flags).data.isSome = true) :
    DirReader.read_from env self face (d :: rest) =
      Except.ok ({ self with _dir := rest, _stream := some d },
        env.imread (self._path ++ "/" ++ d) self.flags) := by
  have hn : (env.imread (self._path ++ "/" ++ d) self.flags).data.isNone = false := by
    cases hx : (env.imread (self._path ++ "/" ++ d) self.flags).data <;> simp [hx] at hd ⊢
  simp [DirReader.read_from, h, hn]

theorem read_from_undecoded (env : Env) (self : DirReader) (face : Mat) (d : String)
    (rest : List String) (h : is_auto_dir d = false)
    (hd : (env.imread (self._path ++ "/" ++ d) self.flags).data = none) :
    DirReader.read_from env self face (d :: rest) =
      Except.error (Failure.thrown
        { msg := "Failed to read face file: " ++ (self._path ++ "/" ++ d) }) := by
  simp [DirReader.read_from, h, hd]

theorem read_from_cursor (env : Env) (self : DirReader) (face : Mat) (cursor ents : List String) :
    DirReader.read_from env { self with _dir := cursor } face ents =
      DirReader.read_from env self face ents := by
  induction ents with
  | nil => rfl
  | cons d rest ih =>
    cases ha : is_auto_dir d with
    | true => rw [read_from_auto _ _ _ _ _ ha, read_from_auto _ _ _ _ _ ha, ih]
    | false => simp [DirReader.read_from, ha, DirReader.flags]

/-- The three outcomes of a read, by the first entry of the cursor that is not a
pseudo-entry. -/
theorem read_from_cases (env : Env) (self : DirReader) (face : Mat) (ents : List String) :
    (ents.find? (fun n => ! is_auto_dir n) = none ∧
      DirReader.read_from env self face ents =
        Except.ok ({ self with _dir := [], _stream := none }, face)) ∨
    (∃ n, ents.find? (fun n => ! is_auto_dir n) = some n ∧ is_auto_dir n = false ∧
      (env.imread (self._path ++ "/" ++ n) self.flags).data = none ∧
      DirReader.read_from env self face ents =
        Except.error (Failure.thrown
          { msg := "Failed to read face file: " ++ (self._path ++ "/" ++ n) })) ∨
    (∃ n rest, ents.find? (fun n => ! is_auto_dir n) = some n ∧ is_auto_dir n = false ∧
      (env.imread (self._path ++ "/" ++ n) self.flags).data.isSome = true ∧
      DirReader.read_from env self face ents =
        Except.ok ({ self with _dir := rest, _stream := some n },
          env.imread (self._path ++ "/" ++ n) self.flags)) := by
  induction ents with
  | nil => exact Or.inl ⟨rfl, rfl⟩
  | cons d rest ih =>
    cases ha : is_auto_dir d with
    | true =>
      rw [read_from_auto _ _ _ _ _ ha]
      simpa [List.find?_cons, ha] using ih
    | false =>
      cases hd : (env.imread (self._path ++ "/" ++ d) self.flags).data with
      | none =>
        exact Or.inr (Or.inl ⟨d, by simp [List.find?_cons, ha], ha, hd,
          read_from_undecoded _ _ _ _ _ ha hd⟩)
      | some px =>
        have hs : (env.imread (self._path ++ "/" ++ d) self.flags).data.isSome = true := by
          rw [hd]; rfl
        exact Or.inr (Or.inr ⟨d, rest, by simp [List.find?_cons, ha], ha, hs,
          read_from_decoded _ _ _ _ _ ha hs⟩)

/-- C6: a read of a `DirReader` raises an error exactly when a next entry other than the
pseudo-entries exists and does not decode, and the error is the thrown `Exception` naming the
file; when no such entry remains the read returns normally, with the caller's frame unchanged
and `bool()` false; a read that returns normally has `bool()` false exactly at the end of the
directory. -/
theorem DirReader_read_error_iff_undecodable (env : Env) (self : DirReader) (face : Mat) :
    ((∃ f, DirReader.read env self face = Except.error f) ↔
      ∃ n, self._dir.find? (fun n => ! is_auto_dir n) = some n ∧
        (env.imread (self._path ++ "/" ++ n) self.flags).data = none) ∧
    (∀ f, DirReader.read env self face = Except.error f →
      ∃ n, self._dir.find? (fun n => ! is_auto_dir n) = some n ∧
        f = Failure.thrown { msg := "Failed to read face file: " ++ (self._path ++ "/" ++ n) }) ∧
    (self._dir.find? (fun n => ! is_auto_dir n) = none →
      ∃ self', DirReader.read env self face = Except.ok (self', face) ∧ self'.bool = false) ∧
    (∀ self' face', DirReader.read env self face = Except.ok (self', face') →
      (self'.bool = false ↔ self._dir.find? (fun n => ! is_auto_dir n) = none)) := by
  unfold DirReader.read
  rcases read_from_cases env self face self._dir with
    ⟨hf, hr⟩ | ⟨n, hf, _, hd, hr⟩ | ⟨n, rest, hf, _, hd, hr⟩
  · rw [hr, hf]
    refine ⟨by simp, by simp, fun _ => ⟨_, rfl, rfl⟩, ?_⟩
    intro self' face' h
    simp only [Except.ok.injEq, Prod.mk.injEq] at h
    rw [← h.1]
    simp [DirReader.bool]
  · rw [hr, hf]
    refine ⟨⟨fun _ => ⟨n, rfl, hd⟩, fun _ => ⟨_, rfl⟩⟩, ?_, by simp, by simp⟩
    intro f h
    simp only [Except.error.injEq] at h
    exact ⟨n, rfl, h.symm⟩
  · rw [hr, hf]
    have hne : (env.imread (self._path ++ "/" ++ n) self.flags).data ≠ none := by
      intro h0; rw [h0] at hd; simp at hd
    refine ⟨⟨by simp, ?_⟩, by simp, by simp, ?_⟩
    · rintro ⟨m, hm, hmd⟩
      simp only [Option.some.injEq] at hm
      subst hm
      exact absurd hmd hne
    · intro self' face' h
      simp only [Except.ok.injEq, Prod.mk.injEq] at h
      rw [← h.1]
      simp [DirReader.bool]

/-- Witness of C6 on the directory `data/.git` of `sample_env`, whose entry `HEAD` is no
image: the read raises the error; and at the end of `data/alice` the read returns with the
frame unchanged. -/
theorem DirReader_read_error_iff_undecodable_witness :
    (∃ f, DirReader.read sample_env { sample_reader with _path := "data/.git", _dir := ["HEAD"] }
      no_image = Except.error f) ∧
    (∃ self', DirReader.read sample_env { sample_reader with _dir := ["."] } (sample_image 2)
      = Except.ok (self', sample_image 2) ∧ self'.bool = false) :=
  ⟨(DirReader_read_error_iff_undecodable sample_env
      { sample_reader with _path := "data/.git", _dir := ["HEAD"] } no_image).1.2
      ⟨"HEAD", by decide, by decide⟩,
   (DirReader_read_error_iff_undecodable sample_env
      { sample_reader with _dir := ["."] } (sample_image 2)).2.2.1 (by decide)⟩

theorem read_skips_auto (env : Env) (self : DirReader) (face : Mat) (d : String)
    (rest : List String) (hdir : self._dir = d :: rest) (h : is_auto_dir d = true) :
    DirReader.read env self face = DirReader.read env { self with _dir := rest } face := by
  unfold DirReader.read
  rw [hdir, read_from_auto _ _ _ _ _ h]
  exact (read_from_cursor env self face rest rest).symm

theorem reads_congr (env : Env) (n : Nat) (a b : DirReader) (face : Mat)
    (h : DirReader.read env a face = DirReader.read env b face) :
    DirReader.reads env (n + 1) a face = DirReader.reads env (n + 1) b face := by
  simp only [DirReader.reads, h]

theorem reads_of_read (env : Env) (n : Nat) (self self1 : DirReader) (face face1 : Mat)
    (obs : List Observation) (last : DirReader × Mat)
    (hread : DirReader.read env self face = Except.ok (self1, face1))
    (hrest : DirReader.reads env n self1 face1 = Except.ok (obs, last)) :
    DirReader.reads env (n + 1) self face =
      Except.ok ({ good := self1.bool, entry := self1._stream, face := face1 } :: obs, last) := by
  simp only [DirReader.reads, hread, hrest]

/-- Successive reads over a cursor whose entries other than the pseudo-entries all decode. -/
theorem reads_enumerates (env : Env) (ents : List String) :
    ∀ (self : DirReader) (face : Mat), self._dir = ents →
      (∀ n ∈ ents, is_auto_dir n = false →
        (env.imread (self._path ++ "/" ++ n) self.flags).data.isSome = true) →
      ∃ lastface final,
        DirReader.reads env ((ents.filter (fun n => ! is_auto_dir n)).length + 1) self face =
          Except.ok
            ((ents.filter (fun n => ! is_auto_dir n)).map
                (fun n => ({ good := true, entry := some n,
                             face := env.imread (self._path ++ "/" ++ n) self.flags } :
                  Observation))
              ++ [{ good := false, entry := none, face := lastface }],
             final, lastface) ∧
        final.bool = false ∧
        (ents.filter (fun n => ! is_auto_dir n) = [] → lastface = face) := by
  induction ents with
  | nil =>
    intro self face hdir _
    refine ⟨face, { self with _dir := [], _stream := none }, ?_, rfl, fun _ => rfl⟩
    simp [DirReader.reads, DirReader.read, hdir, DirReader.read_from, DirReader.bool]
  | cons d rest ih =>
    intro self face hdir hdec
    cases ha : is_auto_dir d with
    | true =>
      have hfil : (d :: rest).filter (fun n => ! is_auto_dir n)
          = rest.filter (fun n => ! is_auto_dir n) := by
        simp [List.filter_cons, ha]
      rw [hfil, reads_congr env _ self { self with _dir := rest } face
        (read_skips_auto env self face d rest hdir ha)]
      exact ih { self with _dir := rest } face rfl
        (fun n hn hna => hdec n (List.mem_cons_of_mem _ hn) hna)
    | false =>
      have hfil : (d :: rest).filter (fun n => ! is_auto_dir n)
          = d :: rest.filter (fun n => ! is_auto_dir n) := by
        simp [List.filter_cons, ha]
      have hd := hdec d (List.mem_cons_self _ _) ha
      have hread : DirReader.read env self face =
          Except.ok ({ self with _dir := rest, _stream := some d },
            env.imread (self._path ++ "/" ++ d) self.flags) := by
        unfold DirReader.read
        rw [hdir]
        exact read_from_decoded env self face d rest ha hd
      obtain ⟨lastface, final, hreads, hbool, _⟩ :=
        ih { self with _dir := rest, _stream := some d }
          (env.imread (self._path ++ "/" ++ d) self.flags) rfl
          (fun n hn hna => hdec n (List.mem_cons_of_mem _ hn) hna)
      refine ⟨lastface, final, ?_, hbool, by simp [hfil]⟩
      rw [hfil, List.length_cons, reads_of_read env _ self _ face _ _ _ hread hreads]
      rfl

/-- C3: for a directory whose entries other than `.` and `..` all decode as images, the
`N + 1` first reads of a `DirReader` return normally; the first `N` leave `bool()` true and
deliver, in directory order, the decoded images of the `N` entries other than `.` and `..`;
the read after them leaves `bool()` false; the entry behind a delivered face is never `.`
nor `..`. -/
theorem DirReader_enumerates_images (env : Env) (self : DirReader) (face : Mat)
    (hdec : ∀ n ∈ self._dir, is_auto_dir n = false →
      (env.imread (self._path ++ "/" ++ n) self.flags).data.isSome = true) :
    (∃ lastface final,
      DirReader.reads env ((self._dir.filter (fun n => ! is_auto_dir n)).length + 1) self face =
        Except.ok
          ((self._dir.filter (fun n => ! is_auto_dir n)).map
              (fun n => ({ good := true, entry := some n,
                           face := env.imread (self._path ++ "/" ++ n) self.flags } :
                Observation))
            ++ [{ good := false, entry := none, face := lastface }],
           final, lastface) ∧
      final.bool = false ∧
      (self._dir.filter (fun n => ! is_auto_dir n) = [] → lastface = face)) ∧
    (∀ n ∈ self._dir.filter (fun n => ! is_auto_dir n), n ∈ self._dir ∧ n ≠ "." ∧ n ≠ "..") ∧
    (∀ n ∈ self._dir, n ≠ "." → n ≠ ".." → n ∈ self._dir.filter (fun n => ! is_auto_dir n)) := by
  refine ⟨reads_enumerates env self._dir self face rfl hdec, ?_, ?_⟩
  · intro n hn
    rw [List.mem_filter] at hn
    have hna : ¬ (is_auto_dir n = true) := by simpa using hn.2
    rw [is_auto_dir_iff] at hna
    exact ⟨hn.1, fun h => hna (Or.inl h), fun h => hna (Or.inr h)⟩
  · intro n hn h1 h2
    rw [List.mem_filter]
    refine ⟨hn, ?_⟩
    have hna : ¬ (is_auto_dir n = true) := by
      rw [is_auto_dir_iff]
      rintro (h | h)
      · exact h1 h
      · exact h2 h
    simpa using hna

/-- Witness of C3 on the directory `data/alice` of `sample_env`, read as
`..`, `1.png`, `.`, `2.png`: two reads deliver the two images and the third ends. -/
theorem DirReader_enumerates_images_witness :
    ∃ lastface final,
      DirReader.reads sample_env 3 sample_reader no_image =
        Except.ok
          ([{ good := true, entry := some "1.png", face := sample_image 1 },
            { good := true, entry := some "2.png", face := sample_image 2 },
            { good := false, entry := none, face := lastface }],
           final, lastface) ∧
      final.bool = false :=
  have h := (DirReader_enumerates_images sample_env sample_reader no_image (by decide)).1
  h.imp fun _ h1 => h1.imp fun _ h2 => ⟨h2.1, h2.2.1⟩

theorem read_from_shrinks (env : Env) (self self' : DirReader) (face face' : Mat)
    (ents : List String)
    (h : DirReader.read_from env self face ents = Except.ok (self', face'))
    (hb : self'.bool = true) : self'._dir.length < ents.length := by
  induction ents with
  | nil =>
    simp only [DirReader.read_from, Except.ok.injEq, Prod.mk.injEq] at h
    rw [← h.1] at hb
    simp [DirReader.bool] at hb
  | cons d rest ih =>
    cases ha : is_auto_dir d with
    | true =>
      rw [read_from_auto _ _ _ _ _ ha] at h
      exact Nat.lt_succ_of_lt (ih h)
    | false =>
      cases hd : (env.imread (self._path ++ "/" ++ d) self.flags).data with
      | none =>
        rw [read_from_undecoded _ _ _ _ _ ha hd] at h
        simp at h
      | some px =>
        rw [read_from_decoded _ _ _ _ _ ha (by rw [hd]; rfl)] at h
        simp only [Except.ok.injEq, Prod.mk.injEq] at h
        rw [← h.1]
        simp

/-- The bound on the reads of the loop of `calc_largest_size` is never what ends it: any two
bounds above the number of entries left give the same result. -/
theorem calc_largest_size_loop_fuel (env : Env) (n : Nat) :
    ∀ (m : Nat) (r : DirReader) (f : Mat) (ret : Size),
      r._dir.length < n → r._dir.length < m →
        calc_largest_size_loop env n r f ret = calc_largest_size_loop env m r f ret := by
  induction n with
  | zero => intro m r f ret hn; exact absurd hn (Nat.not_lt_zero _)
  | succ n ih =>
    intro m r f ret hn hm
    cases m with
    | zero => exact absurd hm (Nat.not_lt_zero _)
    | succ m =>
      simp only [calc_largest_size_loop]
      cases hr : DirReader.read env r f with
      | error e => rfl
      | ok p =>
        obtain ⟨r1, f1⟩ := p
        dsimp only
        cases hb : r1.bool with
        | false => rfl
        | true =>
          have hlt := read_from_shrinks env r r1 f f1 r._dir hr hb
          simp only [if_true]
          exact ih m r1 f1 _ (by omega) (by omega)

/-- The loop of `get_subdirs` is the in-order construction of one reader per entry other
than the pseudo-entries, appended to what is already in `out`. -/
theorem get_subdirs_loop_eq (env : Env) (default_rm : ReadMode) (dataset_path : String)
    (calc_size : Bool) (ents : List String) (out : List DirReader) :
    get_subdirs_loop env default_rm dataset_path calc_size ents out =
      match (ents.filter (fun n => ! is_auto_dir n)).mapM
          (fun n => DirReader.new env default_rm (dataset_path ++ "/" ++ n) calc_size default_rm) with
      | Except.error e => Except.error e
      | Except.ok rs => Except.ok (out ++ rs) := by
  induction ents generalizing out with
  | nil =>
    simp only [get_subdirs_loop, List.filter_nil, List.mapM_nil]
    simp [pure, Except.pure]
  | cons d rest ih =>
    cases ha : is_auto_dir d with
    | true => simp [get_subdirs_loop, ha, ih, List.filter_cons]
    | false =>
      simp only [get_subdirs_loop, ha, List.filter_cons, Bool.not_false, if_true,
        List.mapM_cons, Bool.false_eq_true, if_false]
      cases hn : DirReader.new env default_rm (dataset_path ++ "/" ++ d) calc_size default_rm with
      | error e => simp [bind, Except.bind]
      | ok r =>
        simp only [ih, bind, Except.bind]
        cases hm : (rest.filter (fun n => ! is_auto_dir n)).mapM
          (fun n => DirReader.new env default_rm (dataset_path ++ "/" ++ n) calc_size default_rm) with
        | error e => simp
        | ok rs => simp [pure, Except.pure]

theorem is_auto_dir_eq (d_name : String) :
    is_auto_dir d_name = (d_name == "." || d_name == "..") := by
  rw [Bool.eq_iff_iff, is_auto_dir_iff]
  simp

/-- A read is decided by the cursor without its leading `.` and `..`: at the end it returns
with the frame unchanged, otherwise it decodes the entry found, whatever its name. -/
theorem read_from_eq (env : Env) (self : DirReader) (face : Mat) (ents : List String) :
    DirReader.read_from env self face ents =
      match ents.dropWhile (fun n => n == "." || n == "..") with
      | [] => Except.ok ({ self with _dir := [], _stream := none }, face)
      | n :: rest =>
        if (env.imread (self._path ++ "/" ++ n) self.flags).data.isNone then
          Except.error (Failure.thrown
            { msg := "Failed to read face file: " ++ (self._path ++ "/" ++ n) })
        else
          Except.ok ({ self with _dir := rest, _stream := some n },
            env.imread (self._path ++ "/" ++ n) self.flags) := by
  induction ents with
  | nil => rfl
  | cons d rest ih =>
    cases ha : is_auto_dir d with
    | true =>
      have hp : (d == "." || d == "..") = true := by rw [← is_auto_dir_eq, ha]
      have hdw : (d :: rest).dropWhile (fun n => n == "." || n == "..")
          = rest.dropWhile (fun n => n == "." || n == "..") := by
        rw [List.dropWhile_cons]
        simp only [hp, if_true]
      rw [read_from_auto _ _ _ _ _ ha, ih, hdw]
    | false =>
      have hp : (d == "." || d == "..") = false := by rw [← is_auto_dir_eq, ha]
      have hdw : (d :: rest).dropWhile (fun n => n == "." || n == "..") = d :: rest := by
        rw [List.dropWhile_cons]
        simp only [hp, Bool.false_eq_true, if_false]
      rw [hdw]
      simp only [DirReader.read_from, ha, Bool.false_eq_true, if_false]

/-- C4, as the code has it: `is_auto_dir` is true exactly for the self entry `.` and the
parent entry `..`.  A read of a `DirReader` passes over the leading `.` and `..` of the
cursor and over nothing else: at the end of the directory it returns with the frame
unchanged and `bool()` false, otherwise it decodes the first other entry, hidden or not, and
returns it with `bool()` true, or throws when that entry does not decode.  In particular an
entry other than `.` and `..` at the head of the cursor, hidden or not, is the one decoded,
and a read that returns with `bool()` true has delivered the first entry that is neither `.`
nor `..`.  `get_subdirs` builds one reader per entry of the dataset root that is neither of
the two, hidden or not, in directory order, and fails with the first constructor that
fails. -/
theorem only_self_and_parent_are_skipped (env : Env) (default_rm : ReadMode) :
    (∀ d_name, is_auto_dir d_name = true ↔ d_name = "." ∨ d_name = "..") ∧
    (∀ (self : DirReader) (face : Mat),
      DirReader.read env self face =
        match self._dir.dropWhile (fun n => n == "." || n == "..") with
        | [] => Except.ok ({ self with _dir := [], _stream := none }, face)
        | n :: rest =>
          if (env.imread (self._path ++ "/" ++ n) self.flags).data.isNone then
            Except.error (Failure.thrown
              { msg := "Failed to read face file: " ++ (self._path ++ "/" ++ n) })
          else
            Except.ok ({ self with _dir := rest, _stream := some n },
              env.imread (self._path ++ "/" ++ n) self.flags)) ∧
    (∀ (self : DirReader) (face : Mat) (n : String) (rest : List String),
      self._dir = n :: rest → n ≠ "." → n ≠ ".." →
        ((env.imread (self._path ++ "/" ++ n) self.flags).data.isSome = true →
          DirReader.read env self face =
            Except.ok ({ self with _dir := rest, _stream := some n },
              env.imread (self._path ++ "/" ++ n) self.flags)) ∧
        ((env.imread (self._path ++ "/" ++ n) self.flags).data = none →
          DirReader.read env self face =
            Except.error (Failure.thrown
              { msg := "Failed to read face file: " ++ (self._path ++ "/" ++ n) }))) ∧
    (∀ (self self' : DirReader) (face face' : Mat) (n : String),
      DirReader.read env self face = Except.ok (self', face') → self'._stream = some n →
        self._dir.find? (fun n => ! is_auto_dir n) = some n ∧ n ≠ "." ∧ n ≠ ".." ∧
        face' = env.imread (self._path ++ "/" ++ n) self.flags) ∧
    (∀ (dataset_path : String) (calc_size : Bool) (ents : List String),
      env.opendir dataset_path = some ents →
        get_subdirs env default_rm dataset_path calc_size =
          (ents.filter (fun n => ! (n == "." || n == ".."))).mapM
            (fun n => DirReader.new env default_rm (dataset_path ++ "/" ++ n)
              calc_size default_rm)) := by
  refine ⟨is_auto_dir_iff, ?_, ?_, ?_, ?_⟩
  · intro self face
    exact read_from_eq env self face self._dir
  · intro self face n rest hdir h1 h2
    have ha : is_auto_dir n = false := by
      cases hb : is_auto_dir n with
      | false => rfl
      | true =>
        rcases (is_auto_dir_iff n).mp hb with h | h
        · exact absurd h h1
        · exact absurd h h2
    unfold DirReader.read
    rw [hdir]
    exact ⟨fun hd => read_from_decoded env self face n rest ha hd,
      fun hd => read_from_undecoded env self face n rest ha hd⟩
  · intro self self' face face' n hread hstream
    unfold DirReader.read at hread
    rcases read_from_cases env self face self._dir with
      ⟨_, hr⟩ | ⟨m, _, _, _, hr⟩ | ⟨m, rest, hf, hm, _, hr⟩
    · rw [hr] at hread
      simp only [Except.ok.injEq, Prod.mk.injEq] at hread
      rw [← hread.1] at hstream
      simp at hstream
    · rw [hr] at hread
      simp at hread
    · rw [hr] at hread
      simp only [Except.ok.injEq, Prod.mk.injEq] at hread
      rw [← hread.1] at hstream
      simp only [Option.some.injEq] at hstream
      subst hstream
      have hna : ¬ (is_auto_dir m = true) := by simp [hm]
      rw [is_auto_dir_iff] at hna
      exact ⟨hf, fun h => hna (Or.inl h), fun h => hna (Or.inr h), hread.2.symm⟩
  · intro dataset_path calc_size ents hopen
    have hfun : (fun n : String => ! (n == "." || n == "..")) = (fun n => ! is_auto_dir n) := by
      funext n
      rw [is_auto_dir_eq]
    unfold get_subdirs
    rw [hopen, hfun]
    simp only [get_subdirs_loop_eq, List.nil_append]
    cases (ents.filter (fun n => ! is_auto_dir n)).mapM
      (fun n => DirReader.new env default_rm (dataset_path ++ "/" ++ n) calc_size default_rm) <;> rfl

/-- Witness of C4 as the code has it, on `sample_env`: the read of the directory `data/bob`,
listed as `.`, `..`, `.face.png`, decodes the hidden entry `.face.png` and returns it with
`bool()` true; the read of the directory `data/.git` throws on its entry `HEAD`. -/
theorem only_self_and_parent_are_skipped_witness :
    DirReader.read sample_env
        { sample_reader with _path := "data/bob", _dir := [".", "..", ".face.png"] } no_image =
      Except.ok
        ({ sample_reader with _path := "data/bob", _dir := [], _stream := some ".face.png" },
          sample_image 3) ∧
    DirReader.read sample_env
        { sample_reader with _path := "data/.git", _dir := ["HEAD"] } no_image =
      Except.error (Failure.thrown { msg := "Failed to read face file: data/.git/HEAD" }) :=
  ⟨((only_self_and_parent_are_skipped sample_env ReadMode._colour).2.1
      { sample_reader with _path := "data/bob", _dir := [".", "..", ".face.png"] }
      no_image).trans (by decide),
   ((only_self_and_parent_are_skipped sample_env ReadMode._colour).2.2.1
      { sample_reader with _path := "data/.git", _dir := ["HEAD"] } no_image "HEAD" []
      rfl (by decide) (by decide)).2 (by decide)⟩

/-- C4 as stated fails: the hidden names `.git` and `.face.png` are not pseudo-entries for
`is_auto_dir`; `get_subdirs` on the dataset `data` of `sample_env` opens the hidden directory
`.git` as a subject, and the read of the subject directory `data/bob` delivers the hidden
entry `.face.png` as a face. -/
theorem hidden_entries_are_not_skipped :
    is_auto_dir ".git" = false ∧ is_auto_dir ".face.png" = false ∧
    (match get_subdirs sample_env ReadMode._colour "data" false with
      | Except.ok out => out.map DirReader.get_label
      | Except.error _ => []) = ["alice", ".git", "bob"] ∧
    DirReader.read sample_env
        { sample_reader with _path := "data/bob", _dir := [".", "..", ".face.png"] } no_image =
      Except.ok
        ({ sample_reader with _path := "data/bob", _dir := [], _stream := some ".face.png" },
          sample_image 3) := by
  decide

/-! ## Theorems: `get_last_dir` -/

theorem pop_trailing_some (l : List Char) (h : ∃ c ∈ l, c ≠ '/') :
    ∃ k c t, l = List.replicate k '/' ++ c :: t ∧ c ≠ '/' ∧ pop_trailing l = some (c :: t) := by
  induction l with
  | nil => simp at h
  | cons x xs ih =>
    by_cases hx : x = '/'
    · have h' : ∃ c ∈ xs, c ≠ '/' := by
        obtain ⟨c, hc, hne⟩ := h
        rcases List.mem_cons.mp hc with rfl | hc'
        · exact absurd hx hne
        · exact ⟨c, hc', hne⟩
      obtain ⟨k, c, t, hl, hne, hp⟩ := ih h'
      refine ⟨k + 1, c, t, ?_, hne, ?_⟩
      · rw [hl, hx, List.replicate_succ, List.cons_append]
      · simp [pop_trailing, hx, hp]
    · exact ⟨0, x, xs, by simp, hx, by simp [pop_trailing, hx]⟩

theorem strip_trailing_some (path : List Char) (h : ∃ c ∈ path, c ≠ '/') :
    ∃ k s c, path = s ++ [c] ++ List.replicate k '/' ∧ c ≠ '/' ∧
      strip_trailing path = some (s ++ [c]) := by
  have h' : ∃ c ∈ path.reverse, c ≠ '/' := by
    obtain ⟨c, hc, hne⟩ := h
    exact ⟨c, List.mem_reverse.mpr hc, hne⟩
  obtain ⟨k, c, t, hl, hne, hp⟩ := pop_trailing_some path.reverse h'
  refine ⟨k, t.reverse, c, ?_, hne, ?_⟩
  · have := congrArg List.reverse hl
    simpa using this
  · simp [strip_trailing, hp]

theorem rfind_none (s : List Char) (c : Char) (h : rfind s c = none) : c ∉ s := by
  induction s with
  | nil => simp
  | cons x xs ih =>
    simp only [rfind] at h
    cases hr : rfind xs c with
    | some i => simp [hr] at h
    | none =>
      simp only [hr] at h
      by_cases hx : x = c
      · simp [hx] at h
      · intro hmem
        rcases List.mem_cons.mp hmem with rfl | hmem'
        · exact hx rfl
        · exact ih hr hmem'

theorem rfind_some (s : List Char) (c : Char) (i : Nat) (h : rfind s c = some i) :
    ∃ pre suf, s = pre ++ c :: suf ∧ pre.length = i ∧ c ∉ suf := by
  induction s generalizing i with
  | nil => simp [rfind] at h
  | cons x xs ih =>
    simp only [rfind] at h
    cases hr : rfind xs c with
    | some j =>
      simp only [hr, Option.some.injEq] at h
      obtain ⟨pre, suf, hs, hlen, hnot⟩ := ih j hr
      exact ⟨x :: pre, suf, by rw [hs, List.cons_append], by simp [hlen, h], hnot⟩
    | none =>
      simp only [hr] at h
      by_cases hx : x = c
      · simp only [hx, if_true, Option.some.injEq] at h
        exact ⟨[], xs, by simp [hx], by simp [← h], rfind_none xs c hr⟩
      · simp [hx] at h

theorem rfind_of_not_mem (s : List Char) (c : Char) (h : c ∉ s) : rfind s c = none := by
  cases hr : rfind s c with
  | none => rfl
  | some i =>
    obtain ⟨pre, suf, hs, _, _⟩ := rfind_some s c i hr
    exact absurd (by rw [hs]; simp) h

theorem get_last_dir_chars_no_slash (path s : List Char)
    (hstrip : strip_trailing path = some s) (hr : rfind s '/' = none) :
    get_last_dir_chars path = some s := by
  simp [get_last_dir_chars, hstrip, hr]

theorem get_last_dir_chars_slash (path s : List Char) (pos : Nat)
    (hstrip : strip_trailing path = some s) (hr : rfind s '/' = some pos) :
    get_last_dir_chars path = some (s.drop (pos + 1)) := by
  simp [get_last_dir_chars, hstrip, hr]

theorem get_last_dir_chars_spec (path : List Char) (h : ∃ c ∈ path, c ≠ '/') :
    ∃ r pre k, get_last_dir_chars path = some r ∧ r ≠ [] ∧ '/' ∉ r ∧
      path = pre ++ r ++ List.replicate k '/' ∧ (pre = [] ∨ pre.getLast? = some '/') := by
  obtain ⟨k, s, c, hpath, hne, hstrip⟩ := strip_trailing_some path h
  cases hr : rfind (s ++ [c]) '/' with
  | none =>
    exact ⟨s ++ [c], [], k, get_last_dir_chars_no_slash _ _ hstrip hr, by simp,
      rfind_none _ _ hr, by simpa using hpath, Or.inl rfl⟩
  | some i =>
    obtain ⟨pre, suf, hs, hlen, hnot⟩ := rfind_some _ _ i hr
    have hdrop : (s ++ [c]).drop (i + 1) = suf := by
      rw [hs, ← hlen]
      simp
    have hsuf : suf ≠ [] := by
      intro h0
      rw [h0] at hs
      have h1 := congrArg List.getLast? hs
      simp at h1
      exact hne h1
    refine ⟨suf, pre ++ ['/'], k, ?_, hsuf, hnot, ?_, Or.inr (by simp)⟩
    · rw [get_last_dir_chars_slash _ _ i hstrip hr, hdrop]
    · rw [hpath, hs]
      simp

theorem get_last_dir_chars_idem (r : List Char) (hr : r ≠ []) (hs : '/' ∉ r) :
    get_last_dir_chars r = some r := by
  have h : ∃ c ∈ r, c ≠ '/' := by
    cases r with
    | nil => exact absurd rfl hr
    | cons x xs =>
      exact ⟨x, List.mem_cons_self _ _, fun hx => hs (by rw [← hx]; exact List.mem_cons_self _ _)⟩
  obtain ⟨k, s, c, hpath, _, hstrip⟩ := strip_trailing_some r h
  have hk : k = 0 := by
    cases k with
    | zero => rfl
    | succ k =>
      exfalso
      apply hs
      rw [hpath]
      simp [List.replicate_succ]
  subst hk
  have hpath' : s ++ [c] = r := by simpa using hpath.symm
  rw [hpath'] at hstrip
  exact get_last_dir_chars_no_slash r r hstrip (rfind_of_not_mem r '/' hs)

theorem DirReader_new_label (env : Env) (default_rm rm : ReadMode) (calc_size : Bool)
    (path label : String) (self : DirReader) (hg : get_last_dir path = some label)
    (hnew : DirReader.new env default_rm path calc_size rm = Except.ok self) :
    self.get_label = label := by
  unfold DirReader.new DirReader.open at hnew
  rw [hg] at hnew
  cases ho : env.opendir path with
  | none => simp [ho] at hnew
  | some ents =>
    simp only [ho] at hnew
    cases calc_size with
    | false =>
      simp only [Bool.false_eq_true, if_false, Except.ok.injEq] at hnew
      rw [← hnew]; rfl
    | true =>
      simp only [if_true] at hnew
      cases hc : calc_largest_size env default_rm path with
      | error e => simp [hc] at hnew
      | ok size =>
        simp only [hc, Except.ok.injEq] at hnew
        rw [← hnew]; rfl

/-- C7: for every path with at least one character other than `/`, `get_last_dir` returns a
result `r` that is not empty, contains no `/`, and is the part of the path that follows the
last `/` once the trailing `/` are removed: the path is `pre`, then `r`, then only `/`, where
`pre` is empty or ends with `/`; `get_last_dir` maps `r` to itself; `r` is the label of every
`DirReader` built on the path; `a/b`, `a/b/` and `a/b///` all give `b`. -/
theorem get_last_dir_is_base_name (path : String) (h : ∃ c ∈ path.data, c ≠ '/') :
    (∃ r : String, get_last_dir path = some r ∧ r ≠ "" ∧ '/' ∉ r.data ∧
      (∃ pre k, path.data = pre ++ r.data ++ List.replicate k '/' ∧
        (pre = [] ∨ pre.getLast? = some '/')) ∧
      get_last_dir r = some r ∧
      (∀ (env : Env) (default_rm rm : ReadMode) (calc_size : Bool) (self : DirReader),
        DirReader.new env default_rm path calc_size rm = Except.ok self →
          self.get_label = r)) ∧
    get_last_dir "a/b" = some "b" ∧ get_last_dir "a/b/" = some "b" ∧
    get_last_dir "a/b///" = some "b" := by
  refine ⟨?_, by decide, by decide, by decide⟩
  obtain ⟨r, pre, k, hget, hne, hs, hpath, hpre⟩ := get_last_dir_chars_spec path.data h
  have hg : get_last_dir path = some (String.mk r) := by simp [get_last_dir, hget]
  refine ⟨String.mk r, hg, ?_, hs, ⟨pre, k, hpath, hpre⟩, ?_, ?_⟩
  · intro h0
    apply hne
    have := congrArg String.data h0
    simpa using this
  · simp [get_last_dir, get_last_dir_chars_idem r hne hs]
  · intro env default_rm rm calc_size self hnew
    exact DirReader_new_label env default_rm rm calc_size path (String.mk r) self hg hnew

/-- Witness of C7 on the path `a/b///`. -/
theorem get_last_dir_is_base_name_witness :
    ∃ r : String, get_last_dir "a/b///" = some r ∧ r ≠ "" ∧ '/' ∉ r.data ∧
      (∃ pre k, "a/b///".data = pre ++ r.data ++ List.replicate k '/' ∧
        (pre = [] ∨ pre.getLast? = some '/')) ∧
      get_last_dir r = some r ∧
      (∀ (env : Env) (default_rm rm : ReadMode) (calc_size : Bool) (self : DirReader),
        DirReader.new env default_rm "a/b///" calc_size rm = Except.ok self →
          self.get_label = r) :=
  (get_last_dir_is_base_name "a/b///" ⟨'a', by decide, by decide⟩).1

/-! ## Theorems: cropping -/

theorem get_faces_loop_ok_iff (env : Env) (frame : Mat) (rects : List Rect)
    (acc faces : List Mat) :
    get_faces_loop env frame rects acc = Except.ok faces ↔
      ∃ crops, faces = acc ++ crops ∧ crops.map some = rects.map (env.roi frame) := by
  induction rects generalizing acc with
  | nil =>
    simp only [get_faces_loop, Except.ok.injEq, List.map_nil, List.map_eq_nil_iff]
    constructor
    · intro h; exact ⟨[], by simp [h], rfl⟩
    · rintro ⟨crops, h, rfl⟩; simp [h]
  | cons r rest ih =>
    simp only [get_faces_loop, List.map_cons]
    cases hr : env.roi frame r with
    | none =>
      constructor
      · intro h; simp at h
      · rintro ⟨crops, _, hmap⟩
        cases crops with
        | nil => simp at hmap
        | cons c cs => simp at hmap
    | some cropped =>
      simp only [ih]
      constructor
      · rintro ⟨crops, h, hmap⟩
        exact ⟨cropped :: crops, by simp [h], by simp [hmap]⟩
      · rintro ⟨crops, h, hmap⟩
        cases crops with
        | nil => simp at hmap
        | cons c cs =>
          simp only [List.map_cons, List.cons.injEq, Option.some.injEq] at hmap
          exact ⟨cs, by simp [h, hmap.1], hmap.2⟩

theorem detect_faces_loop_eq (env : Env) (frame : Mat) (faces_rects : List Rect) :
    ∀ (todo i : Nat) (acc : List Mat), todo + i = faces_rects.length →
      detect_faces_loop env frame faces_rects todo i acc =
        get_faces_loop env frame (faces_rects.drop i) acc := by
  intro todo
  induction todo with
  | zero =>
    intro i acc h
    have hi : faces_rects.length ≤ i := by omega
    simp [detect_faces_loop, List.drop_eq_nil_of_le hi, get_faces_loop]
  | succ todo ih =>
    intro i acc h
    have hi : i < faces_rects.length := by omega
    rw [List.drop_eq_getElem_cons hi]
    simp only [detect_faces_loop, List.getElem?_eq_getElem hi, get_faces_loop]
    cases hr : env.roi frame faces_rects[i] with
    | none => rfl
    | some cropped => exact ih (i + 1) (acc ++ [cropped]) (by omega)

theorem crops_in_order (roi : Rect → Option Mat) (rects : List Rect) (faces : List Mat)
    (h : faces.map some = rects.map roi) :
    faces.length = rects.length ∧
    (∀ (i : Nat) (hr : i < rects.length) (hf : i < faces.length),
      roi (rects.get ⟨i, hr⟩) = some (faces.get ⟨i, hf⟩)) ∧
    (rects = [] → faces = []) := by
  have hlen : faces.length = rects.length := by
    have := congrArg List.length h
    simpa using this
  refine ⟨hlen, ?_, ?_⟩
  · intro i hr hf
    have h1 : (faces.map some)[i]? = (rects.map roi)[i]? := by rw [h]
    simp only [List.getElem?_map, List.getElem?_eq_getElem hr, List.getElem?_eq_getElem hf,
      Option.map_some', Option.some.injEq] at h1
    simpa using h1.symm
  · intro h0
    rw [h0] at hlen
    exact List.length_eq_zero.mp hlen

/-- C8: `DetectorLBP::get_faces` returns a face list exactly when the frame is not empty and
every rectangle of the detector crops, and `detect_faces` exactly when every rectangle crops;
the face list then has one element per rectangle in the same order: the lengths agree, the
element at each index is the crop of the frame by the rectangle at that index, and an empty
rectangle list gives an empty face list.  For `get_faces` the frame cropped is the frame as
`equalizeHist` left it, for `detect_faces` the frame passed in. -/
theorem one_face_per_rectangle (env : Env) (self : DetectorLBP)
    (face_cascade : CascadeClassifier) (frame : Mat) (min_confidence : Rat)
    (faces : List Mat) :
    (DetectorLBP.get_faces env self frame min_confidence = Except.ok faces ↔
      frame.empty = false ∧
      faces.map some =
        (self._classifier.detectMultiScale (env.equalizeHist frame) DetectParams.default).map
          (env.roi (env.equalizeHist frame))) ∧
    (detect_faces env face_cascade frame = Except.ok faces ↔
      faces.map some = (detect_faces_rects env face_cascade frame).map (env.roi frame)) ∧
    (DetectorLBP.get_faces env self frame min_confidence = Except.ok faces →
      faces.length =
        (self._classifier.detectMultiScale (env.equalizeHist frame) DetectParams.default).length ∧
      (∀ (i : Nat)
        (hr : i < (self._classifier.detectMultiScale (env.equalizeHist frame)
          DetectParams.default).length) (hf : i < faces.length),
        env.roi (env.equalizeHist frame)
          ((self._classifier.detectMultiScale (env.equalizeHist frame)
            DetectParams.default).get ⟨i, hr⟩) = some (faces.get ⟨i, hf⟩)) ∧
      (self._classifier.detectMultiScale (env.equalizeHist frame) DetectParams.default = [] →
        faces = [])) ∧
    (detect_faces env face_cascade frame = Except.ok faces →
      faces.length = (detect_faces_rects env face_cascade frame).length ∧
      (∀ (i : Nat) (hr : i < (detect_faces_rects env face_cascade frame).length)
        (hf : i < faces.length),
        env.roi frame ((detect_faces_rects env face_cascade frame).get ⟨i, hr⟩)
          = some (faces.get ⟨i, hf⟩)) ∧
      (detect_faces_rects env face_cascade frame = [] → faces = [])) := by
  have hA : DetectorLBP.get_faces env self frame min_confidence = Except.ok faces ↔
      frame.empty = false ∧
      faces.map some =
        (self._classifier.detectMultiScale (env.equalizeHist frame) DetectParams.default).map
          (env.roi (env.equalizeHist frame)) := by
    unfold DetectorLBP.get_faces DetectorLBP.get_face_rects
    cases he : frame.empty with
    | true => simp
    | false =>
      simp only [Bool.false_eq_true, if_false, get_faces_loop_ok_iff, List.nil_append, true_and]
      constructor
      · rintro ⟨crops, rfl, h⟩; exact h
      · intro h; exact ⟨faces, rfl, h⟩
  have hB : detect_faces env face_cascade frame = Except.ok faces ↔
      faces.map some = (detect_faces_rects env face_cascade frame).map (env.roi frame) := by
    unfold detect_faces
    simp only
    rw [detect_faces_loop_eq env frame _ _ 0 [] (by simp), List.drop_zero,
      get_faces_loop_ok_iff]
    constructor
    · rintro ⟨crops, h, hmap⟩
      rw [List.nil_append] at h
      rw [h]; exact hmap
    · intro h; exact ⟨faces, by simp, h⟩
  exact ⟨hA, hB, fun h => crops_in_order _ _ _ (hA.mp h).2,
    fun h => crops_in_order _ _ _ (hB.mp h)⟩

/-- Witness of C8 on a frame of `sample_env` and the classifier of its cascades directory,
which finds two rectangles: `detect_faces` returns two faces for them. -/
theorem one_face_per_rectangle_witness :
    detect_faces sample_env
        (sample_env.load_classifier "cascades/haarcascade_frontalface_alt.xml") (sample_image 5) =
      Except.ok
        [{ size := { width := 1, height := 1 }, data := some [5] },
         { size := { width := 1, height := 1 }, data := some [5] }] ∧
    ([{ size := { width := 1, height := 1 }, data := some [5] },
      { size := { width := 1, height := 1 }, data := some [5] }] : List Mat).length =
      (detect_faces_rects sample_env
        (sample_env.load_classifier "cascades/haarcascade_frontalface_alt.xml")
        (sample_image 5)).length :=
  ⟨by decide,
   ((one_face_per_rectangle sample_env
      { _classifier := sample_env.load_classifier "cascades/haarcascade_frontalface_alt.xml" }
      (sample_env.load_classifier "cascades/haarcascade_frontalface_alt.xml")
      (sample_image 5) 0
      [{ size := { width := 1, height := 1 }, data := some [5] },
       { size := { width := 1, height := 1 }, data := some [5] }]).2.2.2
    (by decide)).1⟩

end Identity
